import Mathlib

/-!
Verification of the ChronoUI core against its specification.

This file gives a shallow embedding, in Lean 4, of the algorithmic core of
the ChronoUI widget toolkit:

* the per-node property store with single-parent cascading lookup and the
  style cascade resolver (src/include/ContextNodeImpl.hpp);
* the layout solver: track resolution, splitter drag, collapse/restore
  (src/src/core/ChronoUI.cpp, class LayoutImpl);
* the command-bar overflow measurement (src/src/core/ChronoUI.cpp,
  class CellImpl, MeasureCommandBarWidgets and UpdateWidgets);
* cell lookup by index and by name (src/src/core/ChronoUI.cpp,
  LayoutImpl GetCell overloads).

Modelling conventions: C++ int becomes Int; C++ float becomes Rat, with
C-style casts to int modelled by truncation toward zero (exact for the
integer-valued inputs the theorems use); std::unordered_map and std::map
with unique keys become association lists; a nullable parent pointer
becomes an inductive parent chain; Win32 MulDiv DPI scaling is modelled
for the non-negative arguments the code feeds it; external system metrics
are explicit parameters.
-/

/-! ## Property store (ContextNodeImpl.hpp)

A context node holds a local string-to-string map and an optional parent.
The C++ class ContextNodeImpl stores the map in m_properties and the
parent in m_parent; we model the nullable parent pointer by the two
constructors below. -/

inductive ContextNode : Type where
  | root (props : List (String × String))
  | child (props : List (String × String)) (parent : ContextNode)
deriving DecidableEq, Repr

/-- The local property map of a node (C++ member m_properties). -/
def ContextNode.props : ContextNode → List (String × String)
  | .root ps => ps
  | .child ps _ => ps

/-- Lookup in a local property map; models std::unordered_map find with
unique keys, first binding wins. -/
def lookupLocal : List (String × String) → String → Option String
  | [], _ => none
  | p :: rest, k => if p.1 == k then some p.2 else lookupLocal rest k

/-- Overwriting update of a local property map; models the C++ statement
that assigns through operator[] on m_properties: the key is now bound to
the new value, any previous binding for it is gone, all other bindings
are kept. -/
def setLocal (ps : List (String × String)) (k v : String) : List (String × String) :=
  (k, v) :: ps.filter (fun p => !(p.1 == k))

/-- ContextNodeImpl::GetProperty: probe the local map, defer to the
parent on a miss, return the caller-supplied default at the chain end. -/
def GetProperty : ContextNode → String → String → String
  | .root ps, key, dflt =>
      match lookupLocal ps key with
      | some v => v
      | none => dflt
  | .child ps parent, key, dflt =>
      match lookupLocal ps key with
      | some v => v
      | none => GetProperty parent key dflt

/-- ContextNodeImpl::SetProperty: overwrite the local binding for key. -/
def SetProperty : ContextNode → String → String → ContextNode
  | .root ps, k, v => .root (setLocal ps k v)
  | .child ps parent, k, v => .child (setLocal ps k v) parent

/-- ContextNodeImpl::HasProperty: the chain-resolved value (with empty
default) is non-empty. -/
def HasProperty (n : ContextNode) (k : String) : Bool :=
  GetProperty n k "" != ""

/-- ContextNodeImpl::TryResolveState: probe state-qualified keys in the
fixed source order disabled, hover, selected, active, then the bare base
key; return the first chain-resolved non-empty value, else the empty
string to signal not-found. -/
def TryResolveState (n : ContextNode) (baseKey : String)
    (selected enabled hovered active : Bool) : String :=
  if !enabled && HasProperty n (baseKey ++ ":disabled") then
    GetProperty n (baseKey ++ ":disabled") ""
  else if hovered && HasProperty n (baseKey ++ ":hover") then
    GetProperty n (baseKey ++ ":hover") ""
  else if selected && HasProperty n (baseKey ++ ":selected") then
    GetProperty n (baseKey ++ ":selected") ""
  else if active && HasProperty n (baseKey ++ ":active") then
    GetProperty n (baseKey ++ ":active") ""
  else if HasProperty n baseKey then
    GetProperty n baseKey ""
  else ""

/-- ContextNodeImpl::GetStyle: three specificity levels, most specific
first; level one only when the variant is non-empty, level two only when
the class id is non-empty, then the bare property; fall back to the
supplied default when every level resolves empty. -/
def GetStyle (n : ContextNode) (prop dflt classid variant : String)
    (selected enabled hovered active : Bool) : String :=
  if variant ≠ "" then
    let r1 := TryResolveState n (classid ++ ":" ++ variant ++ ":" ++ prop)
      selected enabled hovered active
    if r1 ≠ "" then r1
    else if classid ≠ "" then
      let r2 := TryResolveState n (classid ++ ":" ++ prop)
        selected enabled hovered active
      if r2 ≠ "" then r2
      else
        let r3 := TryResolveState n prop selected enabled hovered active
        if r3 = "" then dflt else r3
    else
      let r3 := TryResolveState n prop selected enabled hovered active
      if r3 = "" then dflt else r3
  else if classid ≠ "" then
    let r2 := TryResolveState n (classid ++ ":" ++ prop)
      selected enabled hovered active
    if r2 ≠ "" then r2
    else
      let r3 := TryResolveState n prop selected enabled hovered active
      if r3 = "" then dflt else r3
  else
    let r3 := TryResolveState n prop selected enabled hovered active
    if r3 = "" then dflt else r3

/-! Specification-side definitions for the property store claims.
These follow the wording of the spec, to be compared with the embedded
source functions above. -/

/-- The parent chain of a node as a list of local maps, the node itself
first, the rootmost ancestor last. -/
def chainOf : ContextNode → List (List (String × String))
  | .root ps => [ps]
  | .child ps parent => ps :: chainOf parent

/-- The value of key k at the nearest node of a chain that defines it. -/
def chainFirst (c : List (List (String × String))) (k : String) : Option String :=
  match c with
  | [] => none
  | ps :: rest =>
      match lookupLocal ps k with
      | some v => some v
      | none => chainFirst rest k

/-- The value of the first key of a list whose chain-resolved value is
non-empty, else the empty string. -/
def firstNonEmptyKey (n : ContextNode) (ks : List String) : String :=
  match ks.find? (fun k => GetProperty n k "" != "") with
  | some k => GetProperty n k ""
  | none => ""

/-- The same probe written as a direct recursion; bridge between the
spec wording and the if-chain of the source. -/
def probeList (n : ContextNode) : List String → String
  | [] => ""
  | k :: ks => if HasProperty n k then GetProperty n k "" else probeList n ks

/-- Specification wording of the state-suffix probe: collect the
applicable state-qualified candidate keys in the claimed tie-break order
followed by the bare base key, and return the first whose chain-resolved
value is non-empty, else the empty string. -/
def stateSuffixSpec (n : ContextNode) (base : String)
    (selected enabled hovered active : Bool) : String :=
  firstNonEmptyKey n
    ((if !enabled then [base ++ ":disabled"] else []) ++
     (if hovered then [base ++ ":hover"] else []) ++
     (if selected then [base ++ ":selected"] else []) ++
     (if active then [base ++ ":active"] else []) ++ [base])

/-! ## Layout solver (ChronoUI.cpp, LayoutImpl)

Track sizing types. C++ SizeUnit and WidgetSize from ChronoUI.hpp; the
float value field is modelled by Rat, and the StandardMetric selector is
abstracted into the environment's system metric value. -/

inductive SizeUnit : Type where
  | Pixels
  | Percent
  | Fill
  | System
deriving DecidableEq, Repr

structure WidgetSize where
  unit : SizeUnit
  value : Rat
deriving DecidableEq, Repr

/-- WidgetSize::Fixed. -/
def WidgetSize.Fixed (px : Rat) : WidgetSize := ⟨SizeUnit.Pixels, px⟩

/-- WidgetSize::Fill. -/
def WidgetSize.Fill (weight : Rat) : WidgetSize := ⟨SizeUnit.Fill, weight⟩

/-- WidgetSize::Percent. -/
def WidgetSize.Percent (p : Rat) : WidgetSize := ⟨SizeUnit.Percent, p⟩

/-- C-style cast of a float expression to int: truncation toward zero,
modelled exactly on the rationals. -/
def cInt (q : Rat) : Int := q.num.tdiv (q.den : Int)

/-- Win32 MulDiv as the code uses it: multiply, add half the divisor,
divide with truncation; exact for the non-negative operands the layout
code supplies. -/
def mulDiv (a b c : Int) : Int := (a * b + c.tdiv 2).tdiv c

/-- The static Scale helper: MulDiv (px, dpi, 96). -/
def scale (dpi px : Int) : Int := mulDiv px dpi 96

/-- The SPLITTER_SIZE constant from ChronoUI.cpp. -/
def SPLITTER_SIZE : Int := 6

/-- External inputs of the solver: the window DPI (96 means 1:1) and the
system caption metric consulted for SizeUnit.System tracks. -/
structure SolveEnv where
  dpi : Int
  sysMetric : Int
deriving DecidableEq, Repr

/-- One row or column plan: struct DimPlan of ChronoUI.cpp, with the
splitter window handle dropped and only the splitter flag kept. -/
structure DimPlan where
  size : WidgetSize
  min : WidgetSize
  pos : Int := 0
  actual : Int := 0
  splitter : Bool := false
  savedSize : WidgetSize := WidgetSize.Fixed 0
  isCollapsed : Bool := false
deriving DecidableEq, Repr

def dimPlanDefault : DimPlan :=
  { size := WidgetSize.Fixed 0, min := WidgetSize.Fixed 0 }

/-- Minimum resolution shared by Arrange and OnSplitter: a Percent
minimum is a truncated fraction of the reference extent, every other
unit casts the value to int and DPI-scales it. -/
def resolveMinPx (env : SolveEnv) (total : Int) (m : WidgetSize) : Int :=
  if m.unit = SizeUnit.Percent then cInt ((total : Rat) * m.value / 100)
  else scale env.dpi (cInt m.value)

/-- First loop of the solve lambda in LayoutImpl::Arrange: reserve
splitter thickness, resolve Pixels, System and Percent tracks (floored
by their minimum except for System), defer Fill tracks while summing
their weights, and consume the available extent. Returns the updated
plans, the remaining extent and the accumulated fill weight. -/
def pass1 (env : SolveEnv) (sSize total : Int) :
    List DimPlan → Int → Rat → List DimPlan × Int × Rat
  | [], avail, fw => ([], avail, fw)
  | d :: rest, avail, fw =>
      let availA := if d.splitter then avail - sSize else avail
      let minPx := resolveMinPx env total d.min
      if d.size.unit = SizeUnit.Pixels then
        let a := max (scale env.dpi (cInt d.size.value)) minPx
        let r := pass1 env sSize total rest (availA - a) fw
        ({ d with actual := a } :: r.1, r.2)
      else if d.size.unit = SizeUnit.System then
        let a := env.sysMetric
        let r := pass1 env sSize total rest (availA - a) fw
        ({ d with actual := a } :: r.1, r.2)
      else if d.size.unit = SizeUnit.Percent then
        let a := max (cInt ((total : Rat) * d.size.value / 100)) minPx
        let r := pass1 env sSize total rest (availA - a) fw
        ({ d with actual := a } :: r.1, r.2)
      else
        let r := pass1 env sSize total rest availA (fw + d.size.value)
        ({ d with actual := 0 } :: r.1, r.2)

/-- Second loop of the solve lambda: distribute the remaining extent
over Fill tracks in proportion to their weights, floored by each
track's resolved minimum; a non-positive remainder contributes zero. -/
def pass2 (env : SolveEnv) (total avail : Int) (fw : Rat)
    (ds : List DimPlan) : List DimPlan :=
  ds.map fun d =>
    if d.size.unit = SizeUnit.Fill then
      let minPx := resolveMinPx env total d.min
      let share := if 0 < avail then cInt ((avail : Rat) * d.size.value / fw) else 0
      { d with actual := max share minPx }
    else d

/-- Third loop of the solve lambda: assign cumulative positions,
adding splitter thickness after any track flagged with one. -/
def pass3 (sSize : Int) (cur : Int) : List DimPlan → List DimPlan
  | [] => []
  | d :: rest =>
      { d with pos := cur } ::
        pass3 sSize (cur + d.actual + (if d.splitter then sSize else 0)) rest

/-- The solve lambda of LayoutImpl::Arrange for one axis: the fill
redistribution only runs when some fill weight was collected. -/
def solve (env : SolveEnv) (ds : List DimPlan) (total offset : Int) : List DimPlan :=
  let sSize := scale env.dpi SPLITTER_SIZE
  let r := pass1 env sSize total ds total 0
  let ds2 := if 0 < r.2.2 then pass2 env total r.2.1 r.2.2 r.1 else r.1
  pass3 sSize offset ds2

/-- The geometry state of LayoutImpl: both track axes and the last
outer rectangle, window handles and cells dropped. -/
structure LayoutState where
  rows : List DimPlan
  cols : List DimPlan
  rectL : Int := 0
  rectT : Int := 0
  rectR : Int := 0
  rectB : Int := 0
deriving DecidableEq, Repr

/-- LayoutImpl::Arrange restricted to its track-solving effect: record
the outer rectangle and solve both axes. -/
def ArrangeState (env : SolveEnv) (s : LayoutState) (x y w h : Int) : LayoutState :=
  { rows := solve env s.rows h y
    cols := solve env s.cols w x
    rectL := x
    rectT := y
    rectR := x + w
    rectB := y + h }

/-- LayoutImpl::RefreshLayout: re-arrange with the last known rectangle. -/
def RefreshLayout (env : SolveEnv) (s : LayoutState) : LayoutState :=
  ArrangeState env s s.rectL s.rectT (s.rectR - s.rectL) (s.rectB - s.rectT)

/-- The track update performed by CollapseColumn: save the current size
policy, replace it by the minimum policy, mark collapsed. -/
def collapsePlan (d : DimPlan) : DimPlan :=
  { d with savedSize := d.size, size := d.min, isCollapsed := true }

/-- The track update performed by RestoreColumn: reinstate the saved
size policy and clear the collapsed flag. -/
def restorePlan (d : DimPlan) : DimPlan :=
  { d with size := d.savedSize, isCollapsed := false }

/-- LayoutImpl::CollapseColumn: validate the index, bail out when the
column is already collapsed, otherwise apply the collapse update and
re-arrange. -/
def CollapseColumn (env : SolveEnv) (s : LayoutState) (index : Int) : LayoutState :=
  if index < 0 ∨ (s.cols.length : Int) ≤ index then s
  else if (s.cols.getD index.toNat dimPlanDefault).isCollapsed then s
  else
    RefreshLayout env
      { s with cols := s.cols.set index.toNat (collapsePlan (s.cols.getD index.toNat dimPlanDefault)) }

/-- LayoutImpl::RestoreColumn: validate the index, bail out when the
column is not collapsed, otherwise apply the restore update and
re-arrange. -/
def RestoreColumn (env : SolveEnv) (s : LayoutState) (index : Int) : LayoutState :=
  if index < 0 ∨ (s.cols.length : Int) ≤ index then s
  else if !(s.cols.getD index.toNat dimPlanDefault).isCollapsed then s
  else
    RefreshLayout env
      { s with cols := s.cols.set index.toNat (restorePlan (s.cols.getD index.toNat dimPlanDefault)) }

/-- The loop of LayoutImpl::OnSplitter that sums the minimums, plus
splitter reservations, of every track after the dragged one. -/
def laterMinSum (env : SolveEnv) (layoutWidth sSize : Int) : List DimPlan → Int
  | [] => 0
  | d :: rest =>
      resolveMinPx env layoutWidth d.min + (if d.splitter then sSize else 0) +
        laterMinSum env layoutWidth sSize rest

/-- The layoutWidth local of OnSplitter: the last outer width minus
any vertical scrollbar width. -/
def splitterLayoutWidth (s : LayoutState) (sbWidth : Int) : Int :=
  (s.rectR - s.rectL) - sbWidth

/-- The newWidth local of OnSplitter for the column branch: pointer
abscissa minus track position, raised to the track's resolved minimum,
then capped so that every later column can keep its minimum plus its
splitter reservation. -/
def splitterNewWidth (env : SolveEnv) (s : LayoutState) (index : Nat)
    (ptx sbWidth : Int) : Int :=
  min
    (max (ptx - (s.cols.getD index dimPlanDefault).pos)
      (resolveMinPx env (splitterLayoutWidth s sbWidth)
        (s.cols.getD index dimPlanDefault).min))
    ((splitterLayoutWidth s sbWidth
        - laterMinSum env (splitterLayoutWidth s sbWidth) (scale env.dpi SPLITTER_SIZE)
            (s.cols.drop (index + 1)))
      - (s.cols.getD index dimPlanDefault).pos)

/-- The track update of OnSplitter: the clamped pixel width is stored
as a Fixed size converted to logical units, dividing by the DPI ratio
dpi over 96. -/
def splitterPlan (env : SolveEnv) (s : LayoutState) (index : Nat)
    (ptx sbWidth : Int) : DimPlan :=
  { s.cols.getD index dimPlanDefault with
      size := WidgetSize.Fixed
        ((splitterNewWidth env s index ptx sbWidth : Rat) * 96 / (env.dpi : Rat)) }

/-- The column branch of LayoutImpl::OnSplitter: update the dragged
column's size policy and re-arrange with the previous outer rectangle.
The row branch of the source is symmetric. -/
def OnSplitterCol (env : SolveEnv) (s : LayoutState) (index : Nat)
    (ptx sbWidth : Int) : LayoutState :=
  ArrangeState env
    { s with cols := s.cols.set index (splitterPlan env s index ptx sbWidth) }
    s.rectL s.rectT (s.rectR - s.rectL) (s.rectB - s.rectT)

/-! ## Command bar measurement (ChronoUI.cpp, CellImpl)

CellImpl::MeasureCommandBarWidgets walks the widget list accumulating a
used width. The per-widget width resolution (property parse, auto and
missing defaults) is kept abstract: a widget enters the model as its
resolved pixel width, which is how the claims quantify over widget
lists with fixed per-widget widths. -/

structure MeasureState where
  visible : List Int
  overflow : List Int
  usedWidth : Int
deriving DecidableEq, Repr

/-- One iteration of the MeasureCommandBarWidgets loop: when overflow
is allowed and either overflow already started or this widget plus the
overflow-button reservation would not fit, the budget shrinks by the
reservation; a widget goes to the visible list only while the overflow
list is empty and the accumulated width stays within budget, otherwise
it goes to the overflow list when allowed and is dropped when not. -/
def measureStep (overflowBtnWidth spacing availableWidth : Int)
    (allowOverflow : Bool) (st : MeasureState) (w : Int) : MeasureState :=
  let needsOverflowRoom :=
    !st.overflow.isEmpty ||
      decide (availableWidth < st.usedWidth + w + spacing + overflowBtnWidth)
  let maxWidth :=
    if allowOverflow && needsOverflowRoom then
      availableWidth - overflowBtnWidth - spacing
    else availableWidth
  if st.overflow.isEmpty && decide (st.usedWidth + w ≤ maxWidth) then
    { st with visible := st.visible ++ [w], usedWidth := st.usedWidth + w + spacing }
  else if allowOverflow then
    { st with overflow := st.overflow ++ [w] }
  else st

/-- CellImpl::MeasureCommandBarWidgets on the resolved widths: the
overflow-button reservation is a scaled 40 and the spacing a scaled 4,
the two lists start empty. -/
def MeasureCommandBarWidgets (dpi availableWidth : Int) (allowOverflow : Bool)
    (widths : List Int) : MeasureState :=
  widths.foldl
    (measureStep (scale dpi 40) (scale dpi 4) availableWidth allowOverflow)
    { visible := [], overflow := [], usedWidth := 0 }

/-- How CellImpl::UpdateWidgets reads the overflow switch: the cell
property "overflow" disables overflow exactly when it reads "false". -/
def allowOverflowOf (n : ContextNode) : Bool :=
  GetProperty n "overflow" "" != "false"

/-- The overflow-trigger maintenance of CellImpl::UpdateWidgets: a
non-empty overflow set lazily creates the trigger, an empty one
destroys any existing trigger. The trigger is modelled as an optional
token. -/
def updateOverflowTrigger (needsOverflow : Bool) (btn : Option Nat) : Option Nat :=
  if needsOverflow then
    match btn with
    | none => some 0
    | some b => some b
  else none

/-- Specification-side measurement with overflow disabled, following
the claim wording: each widget is tested against the full available
width with no reservation, fitting widgets join the visible list,
non-fitting widgets are simply dropped, nothing ever overflows. -/
def specNoOverflowStep (spacing availableWidth : Int)
    (st : MeasureState) (w : Int) : MeasureState :=
  if st.usedWidth + w ≤ availableWidth then
    { st with visible := st.visible ++ [w], usedWidth := st.usedWidth + w + spacing }
  else st

def specNoOverflowMeasure (dpi availableWidth : Int) (widths : List Int) : MeasureState :=
  widths.foldl (specNoOverflowStep (scale dpi 4) availableWidth)
    { visible := [], overflow := [], usedWidth := 0 }

/-! ## Cell lookup (ChronoUI.cpp, LayoutImpl GetCell)

The flat cell vector of LayoutImpl, addressed as row times column
count plus column. A result of none models an out-of-bounds access to
the backing vector, which the C++ leaves unchecked. -/

inductive CellRef : Type where
  | null
  | cell (r c : Nat)
deriving DecidableEq, Repr

/-- LayoutImpl::GetCell (int, int): index the flat vector at
r * cCount + c with no range validation; a flat index outside the
vector has no defined result. -/
def GetCellAt (cells : List CellRef) (cCount r c : Int) : Option CellRef :=
  let idx := r * cCount + c
  if idx < 0 then none else cells[idx.toNat]?

/-- The named-cell registry lookup (std::map count then access). -/
def namedLookup (named : List (String × Int × Int)) (nm : String) :
    Option (String × Int × Int) :=
  named.find? (fun p => p.1 == nm)

/-- LayoutImpl::GetCell (const char*): an unregistered name returns a
null cell reference, a registered one forwards to the indexed lookup. -/
def GetCellByName (named : List (String × Int × Int)) (cells : List CellRef)
    (cCount : Int) (nm : String) : Option CellRef :=
  match namedLookup named nm with
  | none => some CellRef.null
  | some p => GetCellAt cells cCount p.2.1 p.2.2

/-- A one-row, one-column layout used to instantiate layout theorems at
a concrete input. -/
def sampleLayout : LayoutState :=
  { rows := [{ size := WidgetSize.Fill 1, min := WidgetSize.Fixed 20 }]
    cols := [{ size := WidgetSize.Fixed 100, min := WidgetSize.Fixed 20 }]
    rectL := 0
    rectT := 0
    rectR := 300
    rectB := 200 }

/-- A layout whose first column is declared as a weighted Fill track
carrying a splitter; used to exercise the splitter drag. -/
def splitLayout : LayoutState :=
  { rows := [{ size := WidgetSize.Fill 1, min := WidgetSize.Fixed 20 }]
    cols := [{ size := WidgetSize.Fill 1, min := WidgetSize.Fixed 20, splitter := true, pos := 0 },
             { size := WidgetSize.Fill 1, min := WidgetSize.Fixed 20, pos := 150 }]
    rectL := 0
    rectT := 0
    rectR := 300
    rectB := 200 }

/-- The declarative part of a track plan: everything except the
resolved pixel geometry, which is what Arrange recomputes. -/
def policyOf (d : DimPlan) : WidgetSize × WidgetSize × Bool × WidgetSize × Bool :=
  (d.size, d.min, d.splitter, d.savedSize, d.isCollapsed)

/-- Pairing invariant for the overflow monotonicity proof, relating the
run at a narrow width to the run at a wider width: either no widget has
overflowed yet and the two runs coincide, or the narrow run has started
overflowing, both runs have distributed the same number of widgets, and
the wide run's overflow list is no longer than the narrow one's. -/
def MeasureInv (stN stW : MeasureState) : Prop :=
  (stN.overflow = [] ∧ stW = stN) ∨
  (stN.overflow ≠ [] ∧
    stN.visible.length + stN.overflow.length
      = stW.visible.length + stW.overflow.length ∧
    stW.overflow.length ≤ stN.overflow.length)

/-! ## Theorems

Helper lemmas about the local map, then one theorem per claim. -/

theorem lookupLocal_setLocal_self (ps : List (String × String)) (k v : String) :
    lookupLocal (setLocal ps k v) k = some v := by
  simp [setLocal, lookupLocal]

/-- C3: GetProperty returns the value of the nearest node on the parent
chain (the node itself first) whose local map defines the key, and the
caller default when no node on the chain does; and SetProperty
immediately followed by GetProperty on the same node returns the new
value, regardless of what any ancestor defines. -/
theorem getProperty_cascade_correct :
    (∀ (n : ContextNode) (k d : String),
        GetProperty n k d = (chainFirst (chainOf n) k).getD d) ∧
    (∀ (n : ContextNode) (k v d : String),
        GetProperty (SetProperty n k v) k d = v) := by
  constructor
  · intro n k d
    induction n with
    | root ps =>
        cases h : lookupLocal ps k <;> simp [GetProperty, chainOf, chainFirst, h]
    | child ps parent ih =>
        cases h : lookupLocal ps k <;> simp [GetProperty, chainOf, chainFirst, h, ih]
  · intro n k v d
    cases n <;> simp [GetProperty, SetProperty, lookupLocal_setLocal_self]

/-- C9: a local binding of a key to the empty string shadows the whole
parent chain at the PropertyStore level, so GetProperty returns the
empty string whatever an ancestor binds and whatever the default is; in
contrast the style-cascade layer treats that binding as absent and
falls back to the style default. -/
theorem getProperty_empty_local_shadows (ps : List (String × String))
    (parent : ContextNode) (k d : String)
    (h : lookupLocal ps k = some "") :
    GetProperty (ContextNode.child ps parent) k d = "" ∧
    GetStyle (ContextNode.child ps parent) k d "" "" false true false false = d := by
  have hget0 : GetProperty (ContextNode.child ps parent) k "" = "" := by
    simp [GetProperty, h]
  refine ⟨by simp [GetProperty, h], ?_⟩
  simp [GetStyle, TryResolveState, HasProperty, hget0]

theorem getProperty_empty_local_shadows_witness :
    GetProperty (ContextNode.child [("color", "")]
      (ContextNode.root [("color", "red")])) "color" "fb" = "" ∧
    GetStyle (ContextNode.child [("color", "")]
      (ContextNode.root [("color", "red")])) "color" "fb" "" "" false true false false = "fb" :=
  getProperty_empty_local_shadows [("color", "")]
    (ContextNode.root [("color", "red")]) "color" "fb" (by decide)

theorem firstNonEmptyKey_eq_probeList (n : ContextNode) (ks : List String) :
    firstNonEmptyKey n ks = probeList n ks := by
  induction ks with
  | nil => simp [firstNonEmptyKey, probeList]
  | cons k rest ih =>
      by_cases h : (GetProperty n k "" != "") = true
      · simp [firstNonEmptyKey, probeList, List.find?_cons, h, HasProperty]
      · simp only [firstNonEmptyKey, probeList, List.find?_cons, h, HasProperty] at ih ⊢
        simp [h, ih]

/-- C2: the state-suffix probe equals the specified probe that checks
disabled (only when not enabled), hover (only when hovered), selected
(only when selected), active (only when active) and finally the bare
base key, returning the first non-empty chain-resolved value, an empty
value counting as absent at every step; in particular, with hover and
selected values both present and both flags raised, the hover value
wins over the selected one. -/
theorem tryResolveState_correct :
    (∀ (n : ContextNode) (base : String) (sl en ho ac : Bool),
        TryResolveState n base sl en ho ac = stateSuffixSpec n base sl en ho ac) ∧
    TryResolveState (ContextNode.root [("x:hover", "hv"), ("x:selected", "sv")])
      "x" true true true false = "hv" := by
  constructor
  · intro n base sl en ho ac
    rw [stateSuffixSpec, firstNonEmptyKey_eq_probeList]
    cases en <;> cases ho <;> cases sl <;> cases ac <;>
      simp [TryResolveState, probeList]
  · decide

/-- C1: when the variant is non-empty and the variant-level key
resolves to a non-empty value through the state probe, GetStyle returns
exactly that value, ahead of the class-level and global levels. -/
theorem getStyle_variant_precedence (n : ContextNode) (p d e v : String)
    (sl en ho ac : Bool) (hv : v ≠ "")
    (hr : TryResolveState n (e ++ ":" ++ v ++ ":" ++ p) sl en ho ac ≠ "") :
    GetStyle n p d e v sl en ho ac
      = TryResolveState n (e ++ ":" ++ v ++ ":" ++ p) sl en ho ac := by
  simp [GetStyle, hv, hr]

theorem getStyle_variant_precedence_witness :
    GetStyle (ContextNode.root
        [("btn:danger:color", "red"), ("btn:color", "blue"), ("color", "green")])
      "color" "dflt" "btn" "danger" false true false false = "red" := by
  rw [getStyle_variant_precedence _ "color" "dflt" "btn" "danger" false true false false
    (by decide) (by decide)]
  decide

theorem measureStep_eval_empty (oBtn spacing aw : Int) (st : MeasureState) (w : Int)
    (hov : st.overflow = []) :
    measureStep oBtn spacing aw true st w =
      if st.usedWidth + w ≤
          (if aw < st.usedWidth + w + spacing + oBtn then aw - oBtn - spacing else aw) then
        { st with visible := st.visible ++ [w], usedWidth := st.usedWidth + w + spacing }
      else { st with overflow := [w] } := by
  unfold measureStep
  simp [hov]

theorem measureStep_eval_nonempty (oBtn spacing aw : Int) (st : MeasureState) (w : Int)
    (hov : st.overflow ≠ []) :
    measureStep oBtn spacing aw true st w = { st with overflow := st.overflow ++ [w] } := by
  unfold measureStep
  simp [hov]

theorem fit_mono (oBtn spacing awN awW uw : Int)
    (hb : 0 ≤ oBtn) (hs : 0 ≤ spacing) (haw : awN ≤ awW)
    (hfit : uw ≤ (if awN < uw + spacing + oBtn then awN - oBtn - spacing else awN)) :
    uw ≤ (if awW < uw + spacing + oBtn then awW - oBtn - spacing else awW) := by
  split_ifs at hfit ⊢ <;> omega

theorem measureStep_inv (oBtn spacing awN awW : Int)
    (hb : 0 ≤ oBtn) (hs : 0 ≤ spacing) (haw : awN ≤ awW)
    (stN stW : MeasureState) (h : MeasureInv stN stW) (w : Int) :
    MeasureInv (measureStep oBtn spacing awN true stN w)
      (measureStep oBtn spacing awW true stW w) := by
  rcases h with ⟨hov, hW⟩ | ⟨hov, hsum, hle⟩
  · rw [hW]
    rw [measureStep_eval_empty oBtn spacing awN stN w hov,
      measureStep_eval_empty oBtn spacing awW stN w hov]
    by_cases hfN : stN.usedWidth + w ≤
        (if awN < stN.usedWidth + w + spacing + oBtn then awN - oBtn - spacing else awN)
    · have hfW := fit_mono oBtn spacing awN awW (stN.usedWidth + w) hb hs haw hfN
      rw [if_pos hfN, if_pos hfW]
      exact Or.inl ⟨by simpa using hov, rfl⟩
    · rw [if_neg hfN]
      by_cases hfW : stN.usedWidth + w ≤
          (if awW < stN.usedWidth + w + spacing + oBtn then awW - oBtn - spacing else awW)
      · rw [if_pos hfW]
        refine Or.inr ⟨by simp, ?_, ?_⟩ <;> simp [hov]
      · rw [if_neg hfW]
        exact Or.inr ⟨by simp, rfl, le_refl _⟩
  · rw [measureStep_eval_nonempty oBtn spacing awN stN w hov]
    rcases hWov : stW.overflow with _ | ⟨o, os⟩
    · rw [measureStep_eval_empty oBtn spacing awW stW w hWov]
      by_cases hfW : stW.usedWidth + w ≤
          (if awW < stW.usedWidth + w + spacing + oBtn then awW - oBtn - spacing else awW)
      · rw [if_pos hfW]
        refine Or.inr ⟨by simp [hov], ?_, ?_⟩ <;>
          simp only [List.length_append, List.length_cons, List.length_nil, hWov] at hsum hle ⊢ <;>
          omega
      · rw [if_neg hfW]
        refine Or.inr ⟨by simp [hov], ?_, ?_⟩ <;>
          simp only [List.length_append, List.length_cons, List.length_nil, hWov] at hsum hle ⊢ <;>
          omega
    · rw [measureStep_eval_nonempty oBtn spacing awW stW w (by simp [hWov])]
      refine Or.inr ⟨by simp [hov], ?_, ?_⟩ <;>
        simp only [List.length_append, List.length_cons, List.length_nil] at hsum hle ⊢ <;>
        omega

theorem measureFold_inv (oBtn spacing awN awW : Int)
    (hb : 0 ≤ oBtn) (hs : 0 ≤ spacing) (haw : awN ≤ awW)
    (ws : List Int) (stN stW : MeasureState) (h : MeasureInv stN stW) :
    MeasureInv (ws.foldl (measureStep oBtn spacing awN true) stN)
      (ws.foldl (measureStep oBtn spacing awW true) stW) := by
  induction ws generalizing stN stW with
  | nil => simpa using h
  | cons w rest ih =>
      exact ih _ _ (measureStep_inv oBtn spacing awN awW hb hs haw stN stW h w)

theorem measureStep_append (oBtn spacing aw : Int) (st : MeasureState) (w : Int) :
    (measureStep oBtn spacing aw true st w).visible
        ++ (measureStep oBtn spacing aw true st w).overflow
      = st.visible ++ st.overflow ++ [w] := by
  rcases hov : st.overflow with _ | ⟨o, os⟩
  · rw [measureStep_eval_empty oBtn spacing aw st w hov]
    split_ifs <;> simp [hov]
  · rw [measureStep_eval_nonempty oBtn spacing aw st w (by simp [hov])]
    simp [hov]

theorem measureFold_append (oBtn spacing aw : Int) (ws : List Int) (st : MeasureState) :
    (ws.foldl (measureStep oBtn spacing aw true) st).visible
        ++ (ws.foldl (measureStep oBtn spacing aw true) st).overflow
      = st.visible ++ st.overflow ++ ws := by
  induction ws generalizing st with
  | nil => simp
  | cons w rest ih =>
      rw [List.foldl_cons, ih, measureStep_append]
      simp

theorem scale_nonneg (dpi px : Int) (hd : 0 ≤ dpi) (hp : 0 ≤ px) : 0 ≤ scale dpi px := by
  unfold scale mulDiv
  have h1 : (0 : Int) ≤ px * dpi := mul_nonneg hp hd
  have h2 : (96 : Int).tdiv 2 = 48 := by decide
  rw [h2]
  exact Int.tdiv_nonneg (by omega) (by omega)

/-- C5: with overflow allowed, the size of the overflow set computed by
MeasureCommandBarWidgets is antitone in the available width, and the
visible and overflow lists split the widget list as a prefix and the
complementary suffix: once one widget overflows, every later widget
overflows too. -/
theorem commandBar_overflow_monotone (dpi awN awW : Int) (ws : List Int)
    (hd : 0 ≤ dpi) (haw : awN ≤ awW) :
    (MeasureCommandBarWidgets dpi awW true ws).overflow.length
        ≤ (MeasureCommandBarWidgets dpi awN true ws).overflow.length ∧
    (MeasureCommandBarWidgets dpi awN true ws).visible
        ++ (MeasureCommandBarWidgets dpi awN true ws).overflow = ws := by
  have hb : 0 ≤ scale dpi 40 := scale_nonneg dpi 40 hd (by decide)
  have hs : 0 ≤ scale dpi 4 := scale_nonneg dpi 4 hd (by decide)
  constructor
  · have hinv := measureFold_inv (scale dpi 40) (scale dpi 4) awN awW hb hs haw ws
      { visible := [], overflow := [], usedWidth := 0 }
      { visible := [], overflow := [], usedWidth := 0 } (Or.inl ⟨rfl, rfl⟩)
    unfold MeasureCommandBarWidgets
    rcases hinv with ⟨_, h2⟩ | ⟨_, _, h3⟩
    · rw [h2]
    · exact h3
  · have hap := measureFold_append (scale dpi 40) (scale dpi 4) awN ws
      { visible := [], overflow := [], usedWidth := 0 }
    unfold MeasureCommandBarWidgets
    simpa using hap

theorem commandBar_overflow_monotone_witness :
    (MeasureCommandBarWidgets 96 200 true [80, 80]).overflow.length
        ≤ (MeasureCommandBarWidgets 96 100 true [80, 80]).overflow.length ∧
    (MeasureCommandBarWidgets 96 100 true [80, 80]).visible
        ++ (MeasureCommandBarWidgets 96 100 true [80, 80]).overflow = [80, 80] :=
  commandBar_overflow_monotone 96 100 200 [80, 80] (by decide) (by decide)

theorem measureFold_noOverflow (oBtn spacing aw : Int) (ws : List Int) (st : MeasureState)
    (h : st.overflow = []) :
    ws.foldl (measureStep oBtn spacing aw false) st
      = ws.foldl (specNoOverflowStep spacing aw) st ∧
    (ws.foldl (measureStep oBtn spacing aw false) st).overflow = [] := by
  induction ws generalizing st with
  | nil => exact ⟨rfl, h⟩
  | cons w rest ih =>
      have hstep : measureStep oBtn spacing aw false st w = specNoOverflowStep spacing aw st w := by
        unfold measureStep specNoOverflowStep
        simp [h]
      have hov2 : (specNoOverflowStep spacing aw st w).overflow = [] := by
        unfold specNoOverflowStep
        split_ifs <;> simp [h]
      rw [List.foldl_cons, List.foldl_cons, hstep]
      exact ih _ hov2

/-- C10: when the cell's overflow property reads "false", measurement
never places a widget into the overflow set, so the trigger is
destroyed or never created; the full available width is used with no
reservation and a widget that does not fit lands in neither list, as
captured by equality with the reservation-free specification
measurement that simply drops non-fitting widgets. -/
theorem commandBar_overflow_disabled (n : ContextNode) (dpi aw : Int)
    (ws : List Int) (btn : Option Nat)
    (h : GetProperty n "overflow" "" = "false") :
    (MeasureCommandBarWidgets dpi aw (allowOverflowOf n) ws).overflow = [] ∧
    MeasureCommandBarWidgets dpi aw (allowOverflowOf n) ws
      = specNoOverflowMeasure dpi aw ws ∧
    updateOverflowTrigger
      (!(MeasureCommandBarWidgets dpi aw (allowOverflowOf n) ws).overflow.isEmpty)
      btn = none := by
  have ha : allowOverflowOf n = false := by simp [allowOverflowOf, h]
  have hm := measureFold_noOverflow (scale dpi 40) (scale dpi 4) aw ws
    { visible := [], overflow := [], usedWidth := 0 } rfl
  rw [ha]
  unfold MeasureCommandBarWidgets specNoOverflowMeasure
  refine ⟨hm.2, hm.1, ?_⟩
  rw [hm.2]
  rfl

theorem commandBar_overflow_disabled_witness :
    (MeasureCommandBarWidgets 96 100
        (allowOverflowOf (ContextNode.root [("overflow", "false")])) [80, 80, 80]).overflow = [] ∧
    MeasureCommandBarWidgets 96 100
        (allowOverflowOf (ContextNode.root [("overflow", "false")])) [80, 80, 80]
      = specNoOverflowMeasure 96 100 [80, 80, 80] ∧
    updateOverflowTrigger
      (!(MeasureCommandBarWidgets 96 100
          (allowOverflowOf (ContextNode.root [("overflow", "false")])) [80, 80, 80]).overflow.isEmpty)
      (some 5) = none :=
  commandBar_overflow_disabled (ContextNode.root [("overflow", "false")]) 96 100
    [80, 80, 80] (some 5) (by decide)

/-- C8 counterexample: in a 2 by 2 grid, the out-of-range query with
row 0 and column 2 does not return a null reference: the unvalidated
flat index 0 * 2 + 2 lands on the stored cell (1, 0), which is
returned instead. -/
theorem getCell_out_of_range_counterexample :
    GetCellAt [CellRef.cell 0 0, CellRef.cell 0 1, CellRef.cell 1 0, CellRef.cell 1 1]
        2 0 2 = some (CellRef.cell 1 0) ∧
    some (CellRef.cell 1 0) ≠ some CellRef.null := by
  decide

/-- C8 amended: GetCell by name returns a null reference for a name
never registered; GetCell by indices performs no range validation: the
flat index r * cCount + c is looked up directly, so an index outside
the backing vector has no defined result (an unchecked vector access),
and an index inside it returns that entry even when the pair (r, c)
itself is out of range. -/
theorem getCell_amended (named : List (String × Int × Int)) (cells : List CellRef)
    (cCount : Int) (nm : String) (r c : Int) :
    (namedLookup named nm = none →
      GetCellByName named cells cCount nm = some CellRef.null) ∧
    (r * cCount + c < 0 ∨ (cells.length : Int) ≤ r * cCount + c →
      GetCellAt cells cCount r c = none) ∧
    (0 ≤ r * cCount + c → r * cCount + c < (cells.length : Int) →
      GetCellAt cells cCount r c
        = some (cells.getD (r * cCount + c).toNat CellRef.null)) := by
  refine ⟨?_, ?_, ?_⟩
  · intro h
    unfold GetCellByName
    rw [h]
  · intro h
    unfold GetCellAt
    rcases h with h | h
    · rw [if_pos h]
    · rw [if_neg (by omega)]
      apply List.getElem?_eq_none
      omega
  · intro h0 hlt
    have hn : (r * cCount + c).toNat < cells.length := by omega
    unfold GetCellAt
    rw [if_neg (by omega), List.getD_eq_getElem?_getD, List.getElem?_eq_getElem hn]
    rfl

theorem getCell_amended_witness :
    GetCellByName [("main", 0, 0)] [CellRef.cell 0 0] 1 "missing" = some CellRef.null ∧
    GetCellAt [CellRef.cell 0 0] 1 1 0 = none :=
  ⟨(getCell_amended [("main", 0, 0)] [CellRef.cell 0 0] 1 "missing" 1 0).1 (by decide),
   (getCell_amended [("main", 0, 0)] [CellRef.cell 0 0] 1 "missing" 1 0).2.1 (by decide)⟩

theorem pass1_policy (env : SolveEnv) (sSize total : Int) (ds : List DimPlan)
    (avail : Int) (fw : Rat) :
    (pass1 env sSize total ds avail fw).1.map policyOf = ds.map policyOf := by
  induction ds generalizing avail fw with
  | nil => simp [pass1]
  | cons d rest ih =>
      unfold pass1
      split_ifs <;> simp [policyOf, ih]

theorem pass2_policy (env : SolveEnv) (total avail : Int) (fw : Rat) (ds : List DimPlan) :
    (pass2 env total avail fw ds).map policyOf = ds.map policyOf := by
  unfold pass2
  rw [List.map_map]
  apply List.map_congr_left
  intro d _
  by_cases hd : d.size.unit = SizeUnit.Fill <;> simp [hd, policyOf]

theorem pass3_policy (sSize cur : Int) (ds : List DimPlan) :
    (pass3 sSize cur ds).map policyOf = ds.map policyOf := by
  induction ds generalizing cur with
  | nil => simp [pass3]
  | cons d rest ih => simp [pass3, policyOf, ih]

theorem solve_policy (env : SolveEnv) (ds : List DimPlan) (total offset : Int) :
    (solve env ds total offset).map policyOf = ds.map policyOf := by
  unfold solve
  dsimp only
  split_ifs with h
  · rw [pass3_policy, pass2_policy, pass1_policy]
  · rw [pass3_policy, pass1_policy]

theorem solve_length (env : SolveEnv) (ds : List DimPlan) (total offset : Int) :
    (solve env ds total offset).length = ds.length := by
  simpa using congrArg List.length (solve_policy env ds total offset)

theorem solve_policy_getD (env : SolveEnv) (ds : List DimPlan) (total offset : Int)
    (i : ℕ) :
    policyOf ((solve env ds total offset).getD i dimPlanDefault)
      = policyOf (ds.getD i dimPlanDefault) := by
  have h := congrArg (fun l => l.getD i (policyOf dimPlanDefault))
    (solve_policy env ds total offset)
  simpa [List.getD_map] using h

theorem getD_set_self (l : List DimPlan) (i : ℕ) (x : DimPlan) (h : i < l.length) :
    (l.set i x).getD i dimPlanDefault = x := by
  simp [List.getD, List.getElem?_set_self, h]

/-- C6: for a valid column index, collapse immediately followed by
restore leaves the track with exactly its pre-collapse size policy
(unit and value both, the whole WidgetSize), and collapse on an already
collapsed column is a no-op returning the state unchanged, so the saved
pre-collapse policy is never overwritten. -/
theorem collapse_restore_roundtrip (env : SolveEnv) (s : LayoutState) (i : ℕ)
    (hi : i < s.cols.length) :
    ((s.cols.getD i dimPlanDefault).isCollapsed = false →
      ((RestoreColumn env (CollapseColumn env s (i : Int)) (i : Int)).cols.getD i
          dimPlanDefault).size = (s.cols.getD i dimPlanDefault).size) ∧
    ((s.cols.getD i dimPlanDefault).isCollapsed = true →
      CollapseColumn env s (i : Int) = s) := by
  have hnot : ¬((i : Int) < 0 ∨ (s.cols.length : Int) ≤ (i : Int)) := by omega
  have hii : ((i : Int)).toNat = i := Int.toNat_natCast i
  constructor
  · intro hnc
    have hC : CollapseColumn env s (i : Int)
        = RefreshLayout env
            { s with cols := s.cols.set i (collapsePlan (s.cols.getD i dimPlanDefault)) } := by
      unfold CollapseColumn
      rw [hii, if_neg hnot, if_neg (by rw [hnc]; decide)]
    rw [hC]
    set s2 := RefreshLayout env
      { s with cols := s.cols.set i (collapsePlan (s.cols.getD i dimPlanDefault)) } with hs2
    have hs2cols : s2.cols
        = solve env (s.cols.set i (collapsePlan (s.cols.getD i dimPlanDefault)))
            (s.rectR - s.rectL) s.rectL := by
      rw [hs2]
      rfl
    have hpol : policyOf (s2.cols.getD i dimPlanDefault)
        = policyOf (collapsePlan (s.cols.getD i dimPlanDefault)) := by
      rw [hs2cols, solve_policy_getD, getD_set_self s.cols i _ (by simpa using hi)]
    have hsaved : (s2.cols.getD i dimPlanDefault).savedSize
        = (s.cols.getD i dimPlanDefault).size :=
      congrArg (fun t => t.2.2.2.1) hpol
    have hic : (s2.cols.getD i dimPlanDefault).isCollapsed = true :=
      congrArg (fun t => t.2.2.2.2) hpol
    have hlen2 : s2.cols.length = s.cols.length := by
      rw [hs2cols, solve_length]
      simp
    have hnot2 : ¬((i : Int) < 0 ∨ (s2.cols.length : Int) ≤ (i : Int)) := by omega
    have hR : RestoreColumn env s2 (i : Int)
        = RefreshLayout env
            { s2 with cols := s2.cols.set i (restorePlan (s2.cols.getD i dimPlanDefault)) } := by
      unfold RestoreColumn
      rw [hii, if_neg hnot2, if_neg (by rw [hic]; decide)]
    rw [hR]
    have hfin : (RefreshLayout env
          { s2 with cols := s2.cols.set i (restorePlan (s2.cols.getD i dimPlanDefault)) }).cols
        = solve env (s2.cols.set i (restorePlan (s2.cols.getD i dimPlanDefault)))
            (s2.rectR - s2.rectL) s2.rectL := rfl
    have hpol3 : policyOf ((RefreshLayout env
          { s2 with cols := s2.cols.set i (restorePlan (s2.cols.getD i dimPlanDefault)) }).cols.getD i
            dimPlanDefault)
        = policyOf (restorePlan (s2.cols.getD i dimPlanDefault)) := by
      rw [hfin, solve_policy_getD, getD_set_self s2.cols i _ (by omega)]
    have hsize := congrArg (fun t => t.1) hpol3
    exact hsize.trans hsaved
  · intro hc
    unfold CollapseColumn
    rw [hii, if_neg hnot, if_pos hc]

theorem collapse_restore_roundtrip_witness :
    ((RestoreColumn ⟨96, 0⟩ (CollapseColumn ⟨96, 0⟩ sampleLayout 0) 0).cols.getD 0
        dimPlanDefault).size = (sampleLayout.cols.getD 0 dimPlanDefault).size :=
  (collapse_restore_roundtrip ⟨96, 0⟩ sampleLayout 0 (by decide)).1 (by decide)

theorem cInt_natCast (n : ℕ) : cInt (n : Rat) = (n : Int) := by
  unfold cInt
  rw [Rat.num_natCast, Rat.den_natCast]
  simp

theorem scale96_id (a : Int) (h : 0 ≤ a) : scale 96 a = a := by
  unfold scale mulDiv
  have h2 : (96 : Int).tdiv 2 = 48 := by decide
  rw [h2]
  calc (a * 96 + 48).tdiv 96 = (a * 96 + 48) / 96 := Int.tdiv_eq_ediv (by omega) (by omega)
    _ = a := by omega

/-- C4: three tracks declared Fixed 30, Fill 1, Fixed 60 with pixel
minimums not exceeding those sizes, arranged in a 300 pixel extent at
1:1 DPI, resolve to sizes 30, 210, 60 at positions 0, 30, 240. -/
theorem arrange_fixed_fill_fixed (sysM : Int) (m1 m2 m3 : ℕ)
    (h1 : m1 ≤ 30) (h2 : m2 ≤ 210) (h3 : m3 ≤ 60) :
    (solve ⟨96, sysM⟩
        [ { size := WidgetSize.Fixed 30, min := WidgetSize.Fixed (m1 : Rat) },
          { size := WidgetSize.Fill 1, min := WidgetSize.Fixed (m2 : Rat) },
          { size := WidgetSize.Fixed 60, min := WidgetSize.Fixed (m3 : Rat) } ]
        300 0).map (fun d => (d.actual, d.pos)) = [(30, 0), (210, 30), (60, 240)] := by
  have c30 : scale 96 (cInt (30 : Rat)) = 30 := by decide
  have c60 : scale 96 (cInt (60 : Rat)) = 60 := by decide
  have c210 : cInt (210 : Rat) = 210 := by decide
  have s1 : scale 96 (m1 : Int) = (m1 : Int) := scale96_id _ (Int.natCast_nonneg m1)
  have s2 : scale 96 (m2 : Int) = (m2 : Int) := scale96_id _ (Int.natCast_nonneg m2)
  have s3 : scale 96 (m3 : Int) = (m3 : Int) := scale96_id _ (Int.natCast_nonneg m3)
  have hm1 : max (30 : Int) (m1 : Int) = 30 := by omega
  have hm2 : max (210 : Int) (m2 : Int) = 210 := by omega
  have hm3 : max (60 : Int) (m3 : Int) = 60 := by omega
  have uA : SizeUnit.Pixels ≠ SizeUnit.Percent := by decide
  have uB : SizeUnit.Fill ≠ SizeUnit.Pixels := by decide
  have uC : SizeUnit.Fill ≠ SizeUnit.System := by decide
  have uD : SizeUnit.Fill ≠ SizeUnit.Percent := by decide
  have uE : SizeUnit.Pixels ≠ SizeUnit.Fill := by decide
  norm_num [solve, pass1, pass2, pass3, SPLITTER_SIZE, resolveMinPx, WidgetSize.Fixed,
    WidgetSize.Fill, cInt_natCast, c30, c60, c210, s1, s2, s3, hm1, hm2, hm3,
    uA, uB, uC, uD, uE]

theorem arrange_fixed_fill_fixed_witness :
    (solve ⟨96, 0⟩
        [ { size := WidgetSize.Fixed 30, min := WidgetSize.Fixed ((20 : ℕ) : Rat) },
          { size := WidgetSize.Fill 1, min := WidgetSize.Fixed ((20 : ℕ) : Rat) },
          { size := WidgetSize.Fixed 60, min := WidgetSize.Fixed ((20 : ℕ) : Rat) } ]
        300 0).map (fun d => (d.actual, d.pos)) = [(30, 0), (210, 30), (60, 240)] :=
  arrange_fixed_fill_fixed 0 20 20 20 (by decide) (by decide) (by decide)

/-- C7 counterexample: a column declared as a weighted Fill track does
not keep its declared size unit through a splitter drag; the drag
stores a Fixed (pixel) size policy instead, so OnSplitter does not
convert the result back to the track's declared unit. -/
theorem onSplitter_unit_counterexample :
    (splitLayout.cols.getD 0 dimPlanDefault).size.unit = SizeUnit.Fill ∧
    ((OnSplitterCol ⟨96, 0⟩ splitLayout 0 150 0).cols.getD 0 dimPlanDefault).size.unit
      = SizeUnit.Pixels ∧
    SizeUnit.Pixels ≠ SizeUnit.Fill := by
  refine ⟨rfl, ?_, by decide⟩
  have hcols : (OnSplitterCol ⟨96, 0⟩ splitLayout 0 150 0).cols
      = solve ⟨96, 0⟩ (splitLayout.cols.set 0 (splitterPlan ⟨96, 0⟩ splitLayout 0 150 0))
          (splitLayout.rectR - splitLayout.rectL) splitLayout.rectL := rfl
  have hpol : policyOf ((OnSplitterCol ⟨96, 0⟩ splitLayout 0 150 0).cols.getD 0 dimPlanDefault)
      = policyOf (splitterPlan ⟨96, 0⟩ splitLayout 0 150 0) := by
    rw [hcols, solve_policy_getD, getD_set_self _ _ _ (by decide)]
  exact congrArg (fun t => t.1.unit) hpol

/-- C7 (amended): on a splitter drag against column i, the new size is
the pointer abscissa minus the track's resolved position, clamped from
below by the track's resolved minimum and from above by the layout
width minus the minimums (plus splitter reservations) of all later
columns minus the track's position; the clamped pixel value is stored
as a Fixed size in logical units (divided by the DPI ratio), replacing
the declared unit, and arrange is re-invoked with the previous outer
rectangle; the clamp keeps room for every later column's minimum. -/
theorem onSplitter_clamped_fixed (env : SolveEnv) (s : LayoutState) (i : ℕ)
    (ptx sb : Int) (hi : i < s.cols.length)
    (lw lower upper clamped : Int)
    (hlw : lw = (s.rectR - s.rectL) - sb)
    (hlower : lower = resolveMinPx env lw (s.cols.getD i dimPlanDefault).min)
    (hupper : upper = (lw - laterMinSum env lw (scale env.dpi SPLITTER_SIZE)
        (s.cols.drop (i + 1))) - (s.cols.getD i dimPlanDefault).pos)
    (hcl : clamped = min (max (ptx - (s.cols.getD i dimPlanDefault).pos) lower) upper) :
    ((OnSplitterCol env s i ptx sb).cols.getD i dimPlanDefault).size
        = ⟨SizeUnit.Pixels, (clamped : Rat) * 96 / (env.dpi : Rat)⟩ ∧
    (OnSplitterCol env s i ptx sb).rectL = s.rectL ∧
    (OnSplitterCol env s i ptx sb).rectT = s.rectT ∧
    (OnSplitterCol env s i ptx sb).rectR = s.rectR ∧
    (OnSplitterCol env s i ptx sb).rectB = s.rectB ∧
    (lower ≤ upper →
      (s.cols.getD i dimPlanDefault).pos + clamped
        + laterMinSum env lw (scale env.dpi SPLITTER_SIZE) (s.cols.drop (i + 1)) ≤ lw) := by
  have hnw : splitterNewWidth env s i ptx sb = clamped := by
    rw [hcl, hlower, hupper, hlw]
    unfold splitterNewWidth splitterLayoutWidth
    rfl
  have hcols : (OnSplitterCol env s i ptx sb).cols
      = solve env (s.cols.set i (splitterPlan env s i ptx sb))
          (s.rectR - s.rectL) s.rectL := rfl
  have hpol : policyOf ((OnSplitterCol env s i ptx sb).cols.getD i dimPlanDefault)
      = policyOf (splitterPlan env s i ptx sb) := by
    rw [hcols, solve_policy_getD, getD_set_self _ _ _ (by simpa using hi)]
  have hsz : ((OnSplitterCol env s i ptx sb).cols.getD i dimPlanDefault).size
      = WidgetSize.Fixed ((splitterNewWidth env s i ptx sb : Rat) * 96 / (env.dpi : Rat)) :=
    congrArg (fun t => t.1) hpol
  refine ⟨?_, rfl, rfl, ?_, ?_, ?_⟩
  · rw [hsz, hnw]
    rfl
  · show s.rectL + (s.rectR - s.rectL) = s.rectR
    omega
  · show s.rectT + (s.rectB - s.rectT) = s.rectB
    omega
  · intro hle
    omega

theorem onSplitter_clamped_fixed_witness :
    ((OnSplitterCol ⟨96, 0⟩ splitLayout 0 150 0).cols.getD 0 dimPlanDefault).size
        = ⟨SizeUnit.Pixels, ((150 : Int) : Rat) * 96 / ((96 : Int) : Rat)⟩ ∧
    (splitLayout.cols.getD 0 dimPlanDefault).pos + 150
        + laterMinSum ⟨96, 0⟩ 300 (scale (96 : Int) SPLITTER_SIZE)
            (splitLayout.cols.drop (0 + 1)) ≤ 300 := by
  have h := onSplitter_clamped_fixed ⟨96, 0⟩ splitLayout 0 150 0 (by decide) 300 20 280 150
    (by decide) (by decide) (by decide) (by decide)
  exact ⟨h.1, h.2.2.2.2.2 (by decide)⟩
